import Mathlib

/-!
Verification of the snow-particle simulation (`snow.py`).

The motion model is embedded shallowly over exact rational arithmetic:

* Python floats become `ℚ` (the spec states all formulas over reals, and all
  constants in the source are decimal literals that are exact in `ℚ`);
* `math.sin` becomes an explicit function parameter `msin : ℚ → ℚ`, since every
  property below is uniform in the actual sine values;
* Python's unbounded integers become `ℤ`, with `& 0xFFFFFFFF` modelled as
  `% 2^32` (Python bit-ands behave as arithmetic mod `2^32` on all integers);
* the ambient randomness (`random.random()`, `random.uniform`,
  `random.randint`) is injected: every operation that draws random numbers
  takes the drawn values as explicit arguments, and theorems hypothesise the
  documented support of each draw.
-/

/-- The `WIDTH` constant of the source (`WIDTH, HEIGHT = 900, 600`). -/
def WIDTH : ℚ := 900

/-- The `HEIGHT` constant of the source. -/
def HEIGHT : ℚ := 600

/-- Python `int(x)` applied to a real value: truncation toward zero.
For a rational `q = num/den` (with `den > 0`) this is `num.tdiv den`. -/
def pyInt (q : ℚ) : ℤ := q.num.tdiv q.den

/-- Python `round`-to-nearest on an exact rational, used only to state the
spec's claimed `round` behaviour for comparison (Mathlib's `round`). -/
def pyRound (q : ℚ) : ℤ := round q

/-- Source `smoothstep`: `smoothstep(x) = x * x * (3 - 2 * x)`. -/
def smoothstep (x : ℚ) : ℚ := x * x * (3 - 2 * x)

/-- Source `hash01(i, seed)`:
```
n = (i * 374761393 + seed * 668265263) & 0xFFFFFFFF
n = (n ^ (n >> 13)) * 1274126177 & 0xFFFFFFFF
n = n ^ (n >> 16)
return (n & 0xFFFFFFFF) / 0xFFFFFFFF
```
After the first mask the value is a nonnegative integer below `2^32`, so the
remaining steps are carried out on `ℕ`. Note the final division is by
`0xFFFFFFFF = 2^32 - 1`, not `2^32`. -/
def hash01 (i seed : ℤ) : ℚ :=
  let n1 : ℕ := ((i * 374761393 + seed * 668265263) % 4294967296).toNat
  let n2 : ℕ := ((n1 ^^^ (n1 >>> 13)) * 1274126177) % 4294967296
  let n3 : ℕ := n2 ^^^ (n2 >>> 16)
  ((n3 % 4294967296 : ℕ) : ℚ) / 4294967295

/-- Source `value_noise_1d(t, seed)`. -/
def value_noise_1d (t : ℚ) (seed : ℤ) : ℚ :=
  let i0 : ℤ := ⌊t⌋
  let i1 : ℤ := i0 + 1
  let f : ℚ := t - (i0 : ℚ)
  let a := hash01 i0 seed
  let b := hash01 i1 seed
  let u := smoothstep f
  a * (1 - u) + b * u

/-- Source `wind_field(t, y, depth, seed)`, with `math.sin` abstracted as
`msin`. -/
def wind_field (msin : ℚ → ℚ) (t y depth : ℚ) (seed : ℤ) : ℚ × ℚ :=
  let dir_x := 0.5 - depth
  let height_factor := 0.4 + 0.6 * (1.0 - y / HEIGHT)
  let base := msin (t * 0.35)
  let jitter := (value_noise_1d (t * 0.9) seed * 2 - 1) * 0.35
  let wind_strength := (base + jitter) * 200 * height_factor
  let ax := dir_x * wind_strength
  let gust := max 0.0 (msin (t * 1.2 + (seed : ℚ) * 0.01))
  let lift_personal := value_noise_1d (t * 1.1) (seed + 999)
  let lift := gust * lift_personal * 220 * (0.3 + 0.7 * height_factor)
  let ay := -lift
  (ax, ay)

/-- The state of `class SnowParticle`: all mutable fields of one particle. -/
@[ext]
structure SnowParticle where
  x : ℚ
  y : ℚ
  depth : ℚ
  size : ℚ
  alpha : ℤ
  gravity : ℚ
  vx : ℚ
  vy : ℚ
  sway_amp : ℚ
  sway_speed : ℚ
  drag : ℚ
  seed : ℤ
  deriving DecidableEq

/-- The random draws consumed by one call to `SnowParticle.reset`:
`depth = random.random()`, `swayR = random.random()` (used for `sway_speed`),
and `seed = random.randint(0, 10_000)`. -/
structure ResetDraws where
  depth : ℚ
  swayR : ℚ
  seed : ℤ
  deriving DecidableEq

/-- The documented support of the draws consumed by `SnowParticle.reset`:
`random.random()` returns a value in `[0, 1)` and `random.randint(a, b)`
returns an integer in `[a, b]` — both endpoints included. -/
def ResetDraws.ok (d : ResetDraws) : Prop :=
  0 ≤ d.depth ∧ d.depth < 1 ∧ 0 ≤ d.swayR ∧ d.swayR < 1 ∧
    0 ≤ d.seed ∧ d.seed ≤ 10000

instance (d : ResetDraws) : Decidable d.ok := by
  unfold ResetDraws.ok; infer_instance

/-- Source `SnowParticle.reset(x, y)`. It overwrites every field of
the particle (no old field is read), so it is modelled as a constructor from
the positional arguments and the three random draws. -/
def SnowParticle.reset (x y : ℚ) (d : ResetDraws) : SnowParticle :=
  { x := x
    y := y
    depth := d.depth
    size := 1 + d.depth * 2.5
    alpha := pyInt (70 + d.depth * 185)
    gravity := 30 + d.depth * 80
    vx := 0.0
    vy := 20 + d.depth * 150
    sway_amp := 40 + d.depth * 70
    sway_speed := 0.25 + d.swayR * 0.8
    drag := 1.6 - d.depth * 0.6
    seed := d.seed }

/-- The random draws that one call to `SnowParticle.update` may consume:
the bottom-exit reset draws `random.uniform(0, WIDTH)` (as `x1`) plus a
`ResetDraws` bundle `rd1`, and likewise `x2`, `rd2` for the top-exit reset.
At most one of the two resets fires on any update. -/
structure UpdateDraws where
  x1 : ℚ
  rd1 : ResetDraws
  x2 : ℚ
  rd2 : ResetDraws
  deriving DecidableEq

/-- The integration part of `SnowParticle.update(dt, t)` (source lines up to
the position update): wind forcing, sway, Euler velocity step, damping, and
position step. -/
def SnowParticle.integrate (msin : ℚ → ℚ) (p : SnowParticle) (dt t : ℚ) :
    SnowParticle :=
  let aw := wind_field msin t p.y p.depth p.seed
  let n := value_noise_1d (t * p.sway_speed) p.seed
  let sway := (n * 2 - 1) * p.sway_amp
  let ax_sway := sway
  let ax := aw.1 + ax_sway
  let ay := p.gravity + aw.2
  let vx1 := p.vx + ax * dt
  let vy1 := p.vy + ay * dt
  let damp := max 0.0 (1.0 - p.drag * dt)
  let vx2 := vx1 * damp
  let vy2 := vy1 * damp
  { p with
    vx := vx2
    vy := vy2
    x := p.x + vx2 * dt
    y := p.y + vy2 * dt }

/-- The boundary-recycling part of `SnowParticle.update(dt, t)` (source lines
after the position update): bottom-exit reset, top-exit reset, horizontal
wrap. -/
def SnowParticle.recycle (p : SnowParticle) (u : UpdateDraws) : SnowParticle :=
  let p2 := if p.y > HEIGHT + 20 then SnowParticle.reset u.x1 (-20) u.rd1 else p
  let p3 :=
    if p2.y < -60 then SnowParticle.reset u.x2 (HEIGHT + 20) u.rd2 else p2
  if p3.x < -50 then { p3 with x := WIDTH + 50 }
  else if p3.x > WIDTH + 50 then { p3 with x := -50 }
  else p3

/-- Source `SnowParticle.update(dt, t)`: integration followed by
boundary recycling. -/
def SnowParticle.update (msin : ℚ → ℚ) (p : SnowParticle) (dt t : ℚ)
    (u : UpdateDraws) : SnowParticle :=
  (p.integrate msin dt t).recycle u

/-- A zero interpretation of `math.sin`, used to instantiate the theorems
below at concrete inputs. -/
def zeroSin : ℚ → ℚ := fun _ => 0

/-- Sample update draws used to instantiate the theorems below at concrete
inputs. -/
def sampleU : UpdateDraws := ⟨100, ⟨1/2, 1/2, 5⟩, 100, ⟨1/3, 1/3, 7⟩⟩

/-- A sample particle state used to instantiate the theorems below at
concrete inputs. -/
def sampleP : SnowParticle :=
  { x := 450, y := 100, depth := 0, size := 1, alpha := 70, gravity := 30,
    vx := 0, vy := 20, sway_amp := 0, sway_speed := 1/4, drag := 1, seed := 0 }

/-- The wind field as the spec's reference formulas state it (claim C1):
`dir_x = 0.5 - depth`; `height_factor = 0.4 + 0.6*(1 - y/SCREEN_HEIGHT)`;
`jitter = (value_noise_1d(t*0.9, seed)*2 - 1)*0.35`;
`ax = dir_x * (sin(t*0.35) + jitter) * 200 * height_factor`;
`gust = max(0, sin(t*1.2 + seed*0.01))`;
`lift_personal = value_noise_1d(t*1.1, seed+999)`;
`ay = -(gust * lift_personal * 220 * (0.3 + 0.7*height_factor))`. -/
def wind_field_spec (msin : ℚ → ℚ) (t y depth : ℚ) (seed : ℤ) : ℚ × ℚ :=
  let dir_x := 0.5 - depth
  let height_factor := 0.4 + 0.6 * (1 - y / HEIGHT)
  let jitter := (value_noise_1d (t * 0.9) seed * 2 - 1) * 0.35
  let ax := dir_x * (msin (t * 0.35) + jitter) * 200 * height_factor
  let gust := max 0 (msin (t * 1.2 + (seed : ℚ) * 0.01))
  let lift_personal := value_noise_1d (t * 1.1) (seed + 999)
  let ay := -(gust * lift_personal * 220 * (0.3 + 0.7 * height_factor))
  (ax, ay)

/-- C1: for every `t`, `y`, `depth`, `seed` (and any interpretation of
`sin`), `wind_field` returns exactly the pair `(ax, ay)` given by the spec's
reference formulas with the contractual constants 200, 220, 0.35 and the
0.3/0.7 and 0.4/0.6 splits. -/
theorem wind_field_refines_spec (msin : ℚ → ℚ) (t y depth : ℚ) (seed : ℤ) :
    wind_field msin t y depth seed = wind_field_spec msin t y depth seed := by
  unfold wind_field wind_field_spec
  simp only [Prod.mk.injEq]
  constructor <;> ring_nf

/-- C4 (amended): `hash01` always lands in the closed interval `[0, 1]`.
The source divides by `0xFFFFFFFF = 2^32 - 1`, which the masked value can
reach, so the interval is closed on the right. -/
theorem hash01_mem_unit_interval (i seed : ℤ) :
    0 ≤ hash01 i seed ∧ hash01 i seed ≤ 1 := by
  unfold hash01
  refine ⟨by positivity, ?_⟩
  rw [div_le_one (by norm_num)]
  exact_mod_cast Nat.le_of_lt_succ (Nat.mod_lt _ (by norm_num))

/-- C4 counterexample: at `i = 1034621878`, `seed = 0` the masked mix equals
`0xFFFFFFFF`, so `hash01` returns exactly 1 — not strictly less than 1 as the
claim states. -/
theorem hash01_eq_one_counterexample :
    hash01 1034621878 0 = 1 ∧ ¬ hash01 1034621878 0 < 1 := by
  have h : hash01 1034621878 0 = 1 := by simp [hash01]
  exact ⟨h, by rw [h]; exact lt_irrefl 1⟩

/-- C5: `value_noise_1d t seed` equals the reference blend
`a*(1-u) + b*u` with `a = hash01 ⌊t⌋ seed`, `b = hash01 (⌊t⌋+1) seed`,
`u = smoothstep (t - ⌊t⌋)`; in particular at every integer `t = k` it equals
`hash01 k seed` exactly. -/
theorem value_noise_1d_spec (t : ℚ) (seed : ℤ) :
    (value_noise_1d t seed =
      hash01 ⌊t⌋ seed * (1 - smoothstep (t - (⌊t⌋ : ℚ))) +
        hash01 (⌊t⌋ + 1) seed * smoothstep (t - (⌊t⌋ : ℚ))) ∧
    ∀ k : ℤ, value_noise_1d (k : ℚ) seed = hash01 k seed := by
  refine ⟨rfl, fun k => ?_⟩
  unfold value_noise_1d
  simp [smoothstep]

/-- Python `int()` truncation agrees with the mathematical floor on
nonnegative values. -/
theorem pyInt_eq_floor (q : ℚ) (hq : 0 ≤ q) : pyInt q = ⌊q⌋ := by
  rw [pyInt, Rat.floor_def]
  exact Int.tdiv_eq_ediv (Rat.num_nonneg.mpr hq) (Int.natCast_nonneg _)

/-- C3 (amended): after every reset with fresh draws `d` (depth and the
sway draw uniform in `[0,1)`, seed an integer in `[0,10000]` — `randint` is
inclusive), the fields satisfy: `size = 1 + depth*2.5`;
`alpha = ⌊70 + depth*185⌋` (Python `int` truncation, not rounding), which
already lies in the valid opacity range `[0,255]`; `gravity = 30 + depth*80`;
`vx = 0`; `vy = 20 + depth*150`; `sway_amp = 40 + depth*70`;
`sway_speed = 0.25 + swayR*0.8`; `drag = 1.6 - depth*0.6`; and the stored
seed is the freshly drawn one. -/
theorem reset_fields (x y : ℚ) (d : ResetDraws) (hd : d.ok) :
    (SnowParticle.reset x y d).depth = d.depth ∧
    (SnowParticle.reset x y d).size = 1 + d.depth * 2.5 ∧
    (SnowParticle.reset x y d).alpha = ⌊(70 : ℚ) + d.depth * 185⌋ ∧
    70 ≤ (SnowParticle.reset x y d).alpha ∧
    (SnowParticle.reset x y d).alpha ≤ 255 ∧
    (SnowParticle.reset x y d).gravity = 30 + d.depth * 80 ∧
    (SnowParticle.reset x y d).vx = 0 ∧
    (SnowParticle.reset x y d).vy = 20 + d.depth * 150 ∧
    (SnowParticle.reset x y d).sway_amp = 40 + d.depth * 70 ∧
    (SnowParticle.reset x y d).sway_speed = 0.25 + d.swayR * 0.8 ∧
    (SnowParticle.reset x y d).drag = 1.6 - d.depth * 0.6 ∧
    (SnowParticle.reset x y d).seed = d.seed := by
  obtain ⟨hd0, hd1, -, -, -, -⟩ := hd
  have hq : (0 : ℚ) ≤ 70 + d.depth * 185 := by nlinarith
  have halpha : (SnowParticle.reset x y d).alpha = ⌊(70 : ℚ) + d.depth * 185⌋ :=
    pyInt_eq_floor _ hq
  refine ⟨rfl, rfl, halpha, ?_, ?_, rfl, by norm_num [SnowParticle.reset],
    rfl, rfl, rfl, rfl, rfl⟩
  · rw [halpha, Int.le_floor]
    push_cast
    nlinarith
  · rw [halpha]
    have h255 : (70 : ℚ) + d.depth * 185 < 255 := by nlinarith
    have := Int.floor_lt.mpr (by exact_mod_cast h255 : (70 : ℚ) + d.depth * 185 < ((255 : ℤ) : ℚ))
    omega

/-- C3 witness: the amended reset contract evaluated at the concrete draw
`depth = 1/2`, `swayR = 1/2`, `seed = 5`. -/
theorem reset_fields_witness :
    ResetDraws.ok ⟨1/2, 1/2, 5⟩ ∧
      (SnowParticle.reset 0 0 ⟨1/2, 1/2, 5⟩).alpha = ⌊(70 : ℚ) + (1/2) * 185⌋ :=
  ⟨by norm_num [ResetDraws.ok],
    (reset_fields 0 0 ⟨1/2, 1/2, 5⟩ (by norm_num [ResetDraws.ok])).2.2.1⟩

/-- C3 counterexample: at depth `1/100` the code stores
`alpha = int(71.85) = 71`, while the claim's `round(71.85) = 72`; and the
seed draw `randint(0, 10_000)` can legitimately return `10000`, which is not
in the claimed half-open range `[0, 10000)`. -/
theorem reset_alpha_seed_counterexample :
    (SnowParticle.reset 0 0 ⟨1/100, 0, 10000⟩).alpha = 71 ∧
    pyRound ((70 : ℚ) + (1/100) * 185) = 72 ∧
    ResetDraws.ok ⟨1/100, 0, 10000⟩ ∧
    (SnowParticle.reset 0 0 ⟨1/100, 0, 10000⟩).seed = 10000 ∧
    ¬ (10000 : ℤ) < 10000 := by
  refine ⟨?_, ?_, by norm_num [ResetDraws.ok], rfl, by norm_num⟩
  · show pyInt (70 + (1/100 : ℚ) * 185) = 71
    rw [pyInt_eq_floor _ (by norm_num), Int.floor_eq_iff]
    norm_num
  · rw [pyRound, round_eq, Int.floor_eq_iff]
    norm_num

/-- If the integrated position has exited below the screen, `recycle`
performs exactly the bottom-exit reset (and the later top-exit and wrap
branches do not fire). -/
theorem recycle_bottom_exit (q : SnowParticle) (u : UpdateDraws)
    (hy : q.y > HEIGHT + 20) (hx0 : 0 ≤ u.x1) (hx1 : u.x1 < WIDTH) :
    q.recycle u = SnowParticle.reset u.x1 (-20) u.rd1 := by
  have hW : WIDTH = 900 := rfl
  simp only [SnowParticle.recycle]
  rw [if_pos hy]
  rw [if_neg (by norm_num [SnowParticle.reset] :
    ¬ (SnowParticle.reset u.x1 (-20) u.rd1).y < -60)]
  rw [if_neg (by simp only [SnowParticle.reset]; linarith :
    ¬ (SnowParticle.reset u.x1 (-20) u.rd1).x < -50)]
  rw [if_neg (by simp only [SnowParticle.reset]; rw [hW] at hx1 ⊢; linarith :
    ¬ (SnowParticle.reset u.x1 (-20) u.rd1).x > WIDTH + 50)]

/-- C2: if after the position-integration step of `update(dt, t)` the
particle's `y` exceeds `SCREEN_HEIGHT + 20`, that same update resets the
particle: `x` becomes the fresh draw (in `[0, SCREEN_WIDTH)`), `y` becomes
`-20`, and the whole state is the one `reset` builds from the freshly drawn
depth (gravity, sway, drag, size, alpha, velocity and seed all reassigned
from the new draws). -/
theorem update_bottom_exit_reset (msin : ℚ → ℚ) (p : SnowParticle)
    (dt t : ℚ) (u : UpdateDraws)
    (hy : (p.integrate msin dt t).y > HEIGHT + 20)
    (hx0 : 0 ≤ u.x1) (hx1 : u.x1 < WIDTH) :
    p.update msin dt t u = SnowParticle.reset u.x1 (-20) u.rd1 ∧
    (p.update msin dt t u).x = u.x1 ∧
    (p.update msin dt t u).y = -20 ∧
    (p.update msin dt t u).depth = u.rd1.depth ∧
    (p.update msin dt t u).gravity = 30 + u.rd1.depth * 80 ∧
    (p.update msin dt t u).sway_amp = 40 + u.rd1.depth * 70 ∧
    (p.update msin dt t u).drag = 1.6 - u.rd1.depth * 0.6 ∧
    (p.update msin dt t u).size = 1 + u.rd1.depth * 2.5 ∧
    (p.update msin dt t u).vx = 0 ∧
    (p.update msin dt t u).vy = 20 + u.rd1.depth * 150 ∧
    (p.update msin dt t u).seed = u.rd1.seed := by
  have h : p.update msin dt t u = SnowParticle.reset u.x1 (-20) u.rd1 :=
    recycle_bottom_exit _ u hy hx0 hx1
  rw [h]
  refine ⟨rfl, rfl, rfl, rfl, rfl, rfl, rfl, rfl, ?_, rfl, rfl⟩
  norm_num [SnowParticle.reset]

/-- C2 witness: a particle sitting at `y = 700` with `dt = 0` is already past
the bottom margin after integration, and the update is exactly the reset to
`(100, -20)` with the new draws. -/
theorem update_bottom_exit_reset_witness :
    (({ x := 450, y := 700, depth := 0, size := 1, alpha := 70, gravity := 30,
        vx := 0, vy := 20, sway_amp := 40, sway_speed := 1/4, drag := 8/5,
        seed := 0 } : SnowParticle).integrate (fun _ => 0) 0 0).y >
        HEIGHT + 20 ∧
    ({ x := 450, y := 700, depth := 0, size := 1, alpha := 70, gravity := 30,
       vx := 0, vy := 20, sway_amp := 40, sway_speed := 1/4, drag := 8/5,
       seed := 0 } : SnowParticle).update (fun _ => 0) 0 0
        ⟨100, ⟨1/2, 1/2, 5⟩, 100, ⟨1/3, 1/3, 7⟩⟩ =
      SnowParticle.reset 100 (-20) ⟨1/2, 1/2, 5⟩ :=
  ⟨by norm_num [SnowParticle.integrate, HEIGHT],
    (update_bottom_exit_reset (fun _ => 0) _ 0 0 _
      (by norm_num [SnowParticle.integrate, HEIGHT])
      (by norm_num) (by norm_num [WIDTH])).1⟩

/-- C6: when no vertical reset fires on this update, the horizontal wrap is
pure repositioning: if the integrated `x` is below `-50` the final state is
the integrated state with `x` set to exactly `SCREEN_WIDTH + 50` and every
other field (velocity, depth, gravity, sway, drag, size, alpha, seed)
untouched; symmetrically `x > SCREEN_WIDTH + 50` is sent to exactly `-50`. -/
theorem update_horizontal_wrap (msin : ℚ → ℚ) (p : SnowParticle)
    (dt t : ℚ) (u : UpdateDraws)
    (hy1 : ¬ (p.integrate msin dt t).y > HEIGHT + 20)
    (hy2 : ¬ (p.integrate msin dt t).y < -60) :
    ((p.integrate msin dt t).x < -50 →
      p.update msin dt t u = { p.integrate msin dt t with x := WIDTH + 50 }) ∧
    ((p.integrate msin dt t).x > WIDTH + 50 →
      p.update msin dt t u = { p.integrate msin dt t with x := -50 }) := by
  have hW : WIDTH = 900 := rfl
  constructor
  · intro hx
    show (p.integrate msin dt t).recycle u = _
    simp only [SnowParticle.recycle]
    rw [if_neg hy1, if_neg hy2, if_pos hx]
  · intro hx
    have hx2 : ¬ (p.integrate msin dt t).x < -50 := by rw [hW] at hx; linarith
    show (p.integrate msin dt t).recycle u = _
    simp only [SnowParticle.recycle]
    rw [if_neg hy1, if_neg hy2, if_neg hx2, if_pos hx]

/-- C6 witness: a particle at `(x, y) = (-100, 100)` updated with `dt = 0`
keeps its whole state except that `x` wraps to exactly `950`. -/
theorem update_horizontal_wrap_witness :
    ¬ (({ x := -100, y := 100, depth := 0, size := 1, alpha := 70,
          gravity := 30, vx := 0, vy := 20, sway_amp := 40, sway_speed := 1/4,
          drag := 8/5, seed := 0 } : SnowParticle).integrate
            (fun _ => 0) 0 0).y > HEIGHT + 20 ∧
    (({ x := -100, y := 100, depth := 0, size := 1, alpha := 70,
        gravity := 30, vx := 0, vy := 20, sway_amp := 40, sway_speed := 1/4,
        drag := 8/5, seed := 0 } : SnowParticle).integrate
          (fun _ => 0) 0 0).x < -50 ∧
    ({ x := -100, y := 100, depth := 0, size := 1, alpha := 70, gravity := 30,
       vx := 0, vy := 20, sway_amp := 40, sway_speed := 1/4, drag := 8/5,
       seed := 0 } : SnowParticle).update (fun _ => 0) 0 0
        ⟨100, ⟨1/2, 1/2, 5⟩, 100, ⟨1/3, 1/3, 7⟩⟩ =
      { ({ x := -100, y := 100, depth := 0, size := 1, alpha := 70,
           gravity := 30, vx := 0, vy := 20, sway_amp := 40, sway_speed := 1/4,
           drag := 8/5, seed := 0 } : SnowParticle).integrate
             (fun _ => 0) 0 0 with x := WIDTH + 50 } :=
  ⟨by norm_num [SnowParticle.integrate, HEIGHT],
   by norm_num [SnowParticle.integrate],
   (update_horizontal_wrap (fun _ => 0) _ 0 0 _
      (by norm_num [SnowParticle.integrate, HEIGHT])
      (by norm_num [SnowParticle.integrate])).1
      (by norm_num [SnowParticle.integrate])⟩

/-- An update with `dt = 0` does not change the state at all, provided the
particle sits in the recycled box (which every particle the simulation
creates does, by `update_position_box` and the creation ranges). -/
theorem update_zero_dt (msin : ℚ → ℚ) (p : SnowParticle) (t : ℚ)
    (u : UpdateDraws)
    (hbox : -60 ≤ p.y ∧ p.y ≤ HEIGHT + 20 ∧ -50 ≤ p.x ∧ p.x ≤ WIDTH + 50) :
    p.update msin 0 t u = p := by
  obtain ⟨hb1, hb2, hb3, hb4⟩ := hbox
  have hint : p.integrate msin 0 t = p := by
    unfold SnowParticle.integrate
    ext <;> norm_num
  show (p.integrate msin 0 t).recycle u = p
  rw [hint]
  simp only [SnowParticle.recycle]
  rw [if_neg (by linarith : ¬ p.y > HEIGHT + 20),
    if_neg (by linarith : ¬ p.y < -60),
    if_neg (by linarith : ¬ p.x < -50),
    if_neg (by linarith : ¬ p.x > WIDTH + 50)]

/-- C7: repeated calls to `update(0, t)` — any number of them, with any
sequence of global-time values — never change the particle's position or
velocity (indeed they change nothing), for any particle in the recycled
box. -/
theorem update_zero_dt_many (msin : ℚ → ℚ) (p : SnowParticle)
    (u : UpdateDraws) (ts : List ℚ)
    (hbox : -60 ≤ p.y ∧ p.y ≤ HEIGHT + 20 ∧ -50 ≤ p.x ∧ p.x ≤ WIDTH + 50) :
    ts.foldl (fun q t => q.update msin 0 t u) p = p := by
  induction ts with
  | nil => rfl
  | cons t ts ih => rw [List.foldl_cons, update_zero_dt msin p t u hbox, ih]

/-- C7 witness: three zero-`dt` updates at times `0, 1/2, 3` leave a sample
in-box particle exactly where it was. -/
theorem update_zero_dt_many_witness :
    (-60 ≤ (100 : ℚ) ∧ (100 : ℚ) ≤ HEIGHT + 20 ∧ -50 ≤ (450 : ℚ) ∧
      (450 : ℚ) ≤ WIDTH + 50) ∧
    ([0, 1/2, 3] : List ℚ).foldl
        (fun q t => q.update (fun _ => 0) 0 t
          ⟨100, ⟨1/2, 1/2, 5⟩, 100, ⟨1/3, 1/3, 7⟩⟩)
        ({ x := 450, y := 100, depth := 0, size := 1, alpha := 70,
           gravity := 30, vx := 0, vy := 20, sway_amp := 40, sway_speed := 1/4,
           drag := 8/5, seed := 0 } : SnowParticle) =
      { x := 450, y := 100, depth := 0, size := 1, alpha := 70, gravity := 30,
        vx := 0, vy := 20, sway_amp := 40, sway_speed := 1/4, drag := 8/5,
        seed := 0 } :=
  ⟨by norm_num [HEIGHT, WIDTH],
    update_zero_dt_many (fun _ => 0) _ _ _ (by norm_num [HEIGHT, WIDTH])⟩

/-- The depth/drag invariant of claim C9. -/
def SnowParticle.depthDragOK (p : SnowParticle) : Prop :=
  0 ≤ p.depth ∧ p.depth < 1 ∧ 0 < p.drag

/-- A `reset` establishes the depth/drag invariant from any in-range draws. -/
theorem reset_depthDragOK (x y : ℚ) (d : ResetDraws) (hd : d.ok) :
    (SnowParticle.reset x y d).depthDragOK := by
  obtain ⟨h0, h1, -, -, -, -⟩ := hd
  refine ⟨h0, h1, ?_⟩
  show (0 : ℚ) < 1.6 - d.depth * 0.6
  nlinarith

/-- The `recycle` step preserves the depth/drag invariant: it either leaves the
depth-derived fields alone or re-establishes them by a reset. -/
theorem recycle_depthDragOK (q : SnowParticle) (u : UpdateDraws)
    (hq : q.depthDragOK) (h1 : u.rd1.ok) (h2 : u.rd2.ok) :
    (q.recycle u).depthDragOK := by
  simp only [SnowParticle.recycle]
  set p2 := if q.y > HEIGHT + 20 then SnowParticle.reset u.x1 (-20) u.rd1
    else q with hp2
  have hq2 : p2.depthDragOK := by
    rw [hp2]
    split_ifs
    · exact reset_depthDragOK _ _ _ h1
    · exact hq
  set p3 := if p2.y < -60 then SnowParticle.reset u.x2 (HEIGHT + 20) u.rd2
    else p2 with hp3
  have hq3 : p3.depthDragOK := by
    rw [hp3]
    split_ifs
    · exact reset_depthDragOK _ _ _ h2
    · exact hq2
  split_ifs
  · exact hq3
  · exact hq3
  · exact hq3

/-- C9: the invariant `depth ∈ [0,1) ∧ drag > 0` is established by every
reset (hence at creation) and preserved by every update; consequently the
damping factor `max(0, 1 - drag*dt)` lies in `[0, 1]` for every `dt ≥ 0`. -/
theorem depth_drag_invariant :
    (∀ (x y : ℚ) (d : ResetDraws), d.ok →
      (SnowParticle.reset x y d).depthDragOK) ∧
    (∀ (msin : ℚ → ℚ) (p : SnowParticle) (dt t : ℚ) (u : UpdateDraws),
      p.depthDragOK → u.rd1.ok → u.rd2.ok →
        (p.update msin dt t u).depthDragOK) ∧
    (∀ (p : SnowParticle) (dt : ℚ), p.depthDragOK → 0 ≤ dt →
      0 ≤ max 0.0 (1.0 - p.drag * dt) ∧ max 0.0 (1.0 - p.drag * dt) ≤ 1) := by
  refine ⟨reset_depthDragOK, ?_, ?_⟩
  · intro msin p dt t u hp h1 h2
    exact recycle_depthDragOK (p.integrate msin dt t) u hp h1 h2
  · intro p dt hp hdt
    have hdragdt : (0 : ℚ) ≤ p.drag * dt := mul_nonneg (le_of_lt hp.2.2) hdt
    rw [show (0.0 : ℚ) = 0 from by norm_num, show (1.0 : ℚ) = 1 from by norm_num]
    exact ⟨le_max_left _ _, max_le (by norm_num) (by linarith)⟩

/-- C9 witness: the invariant holds concretely after a reset with draws
`(1/2, 1/2, 5)`, and the damping factor at `dt = 1/100` sits in `[0, 1]`. -/
theorem depth_drag_invariant_witness :
    ResetDraws.ok ⟨1/2, 1/2, 5⟩ ∧
    (SnowParticle.reset 0 0 ⟨1/2, 1/2, 5⟩).depthDragOK ∧
    (0 ≤ max 0.0 (1.0 - (SnowParticle.reset 0 0 ⟨1/2, 1/2, 5⟩).drag * (1/100)) ∧
      max 0.0 (1.0 - (SnowParticle.reset 0 0 ⟨1/2, 1/2, 5⟩).drag * (1/100)) ≤ 1) :=
  ⟨by norm_num [ResetDraws.ok],
   depth_drag_invariant.1 0 0 ⟨1/2, 1/2, 5⟩ (by norm_num [ResetDraws.ok]),
   depth_drag_invariant.2.2 (SnowParticle.reset 0 0 ⟨1/2, 1/2, 5⟩) (1/100)
     (depth_drag_invariant.1 0 0 ⟨1/2, 1/2, 5⟩ (by norm_num [ResetDraws.ok]))
     (by norm_num)⟩

/-- The horizontal wrap step confines `x` to `[-50, WIDTH + 50]` and never
moves `y`. -/
theorem wrap_box (r : SnowParticle) (hy1 : -60 ≤ r.y) (hy2 : r.y ≤ HEIGHT + 20) :
    -60 ≤ (if r.x < -50 then { r with x := WIDTH + 50 }
        else if r.x > WIDTH + 50 then { r with x := -50 } else r).y ∧
      (if r.x < -50 then { r with x := WIDTH + 50 }
        else if r.x > WIDTH + 50 then { r with x := -50 } else r).y ≤
        HEIGHT + 20 ∧
      -50 ≤ (if r.x < -50 then { r with x := WIDTH + 50 }
        else if r.x > WIDTH + 50 then { r with x := -50 } else r).x ∧
      (if r.x < -50 then { r with x := WIDTH + 50 }
        else if r.x > WIDTH + 50 then { r with x := -50 } else r).x ≤
        WIDTH + 50 := by
  have hW : WIDTH = 900 := rfl
  split_ifs with h1 h2
  · refine ⟨hy1, hy2, ?_, le_refl _⟩
    show (-50 : ℚ) ≤ WIDTH + 50
    rw [hW]; norm_num
  · refine ⟨hy1, hy2, le_refl _, ?_⟩
    show (-50 : ℚ) ≤ WIDTH + 50
    rw [hW]; norm_num
  · exact ⟨hy1, hy2, not_lt.mp h1, not_lt.mp h2⟩

/-- C10: immediately after any `update(dt, t)` with `dt ≥ 0` and in-range
`uniform(0, WIDTH)` draws, the position lies in the extended screen box
`-60 ≤ y ≤ HEIGHT + 20`, `-50 ≤ x ≤ WIDTH + 50`, whatever the prior state
and however far the integration moved the particle. -/
theorem update_position_box (msin : ℚ → ℚ) (p : SnowParticle) (dt t : ℚ)
    (u : UpdateDraws) (_hdt : 0 ≤ dt)
    (_hx1 : 0 ≤ u.x1 ∧ u.x1 ≤ WIDTH) (_hx2 : 0 ≤ u.x2 ∧ u.x2 ≤ WIDTH) :
    -60 ≤ (p.update msin dt t u).y ∧
      (p.update msin dt t u).y ≤ HEIGHT + 20 ∧
      -50 ≤ (p.update msin dt t u).x ∧
      (p.update msin dt t u).x ≤ WIDTH + 50 := by
  have hH : HEIGHT = 600 := rfl
  unfold SnowParticle.update
  generalize p.integrate msin dt t = q
  simp only [SnowParticle.recycle]
  set p2 := if q.y > HEIGHT + 20 then SnowParticle.reset u.x1 (-20) u.rd1
    else q with hp2
  set p3 := if p2.y < -60 then SnowParticle.reset u.x2 (HEIGHT + 20) u.rd2
    else p2 with hp3
  have hy3 : -60 ≤ p3.y ∧ p3.y ≤ HEIGHT + 20 := by
    rw [hp3]
    split_ifs with hB
    · constructor
      · show (-60 : ℚ) ≤ HEIGHT + 20
        rw [hH]; norm_num
      · exact le_refl _
    · refine ⟨not_lt.mp hB, ?_⟩
      rw [hp2]
      split_ifs with hA
      · show (-20 : ℚ) ≤ HEIGHT + 20
        rw [hH]; norm_num
      · exact not_lt.mp hA
  exact wrap_box p3 hy3.1 hy3.2


/-- C10 witness: a particle flung to `y = 10000` by one step is recycled
back inside the box on that same update. -/
theorem update_position_box_witness :
    (0 : ℚ) ≤ 1 ∧ (0 ≤ sampleU.x1 ∧ sampleU.x1 ≤ WIDTH) ∧
    (0 ≤ sampleU.x2 ∧ sampleU.x2 ≤ WIDTH) ∧
    (-60 ≤ (SnowParticle.update zeroSin { sampleP with y := 10000 } 1 0
        sampleU).y ∧
      (SnowParticle.update zeroSin { sampleP with y := 10000 } 1 0
        sampleU).y ≤ HEIGHT + 20 ∧
      -50 ≤ (SnowParticle.update zeroSin { sampleP with y := 10000 } 1 0
        sampleU).x ∧
      (SnowParticle.update zeroSin { sampleP with y := 10000 } 1 0
        sampleU).x ≤ WIDTH + 50) :=
  ⟨by norm_num, by norm_num [sampleU, WIDTH], by norm_num [sampleU, WIDTH],
    update_position_box zeroSin _ 1 0 _ (by norm_num)
      (by norm_num [sampleU, WIDTH]) (by norm_num [sampleU, WIDTH])⟩

/-- C8: the code performs no validation of `dt` whatsoever — `update` with
the negative time step `dt = -1` silently integrates and mutates the state
(the sample particle's `y` moves from `100` to `120`), instead of rejecting
the invalid input as the spec requires. -/
theorem update_negative_dt_mutates :
    (SnowParticle.update zeroSin sampleP (-1) 0 sampleU).y = 120 ∧
      sampleP.y = 100 ∧ (120 : ℚ) ≠ 100 := by
  refine ⟨?_, rfl, by norm_num⟩
  have h1 : sampleP.integrate zeroSin (-1) 0 =
      { x := 387, y := 120, depth := 0, size := 1, alpha := 70, gravity := 30,
        vx := 63, vy := -20, sway_amp := 0, sway_speed := 1/4, drag := 1,
        seed := 0 } := by
    ext <;> norm_num [SnowParticle.integrate, sampleP, zeroSin, wind_field,
      value_noise_1d, hash01, smoothstep, max_def, HEIGHT]
  show ((sampleP.integrate zeroSin (-1) 0).recycle sampleU).y = 120
  rw [h1]
  norm_num [SnowParticle.recycle, sampleU, HEIGHT, WIDTH]
